import Mathlib

/-!
Shallow embedding of the deepracer-env-config request/response core:
the configuration entities (Area, Track, Agent with nested Location),
their JSON encode/decode, the ConfigServer state and dispatch loop
(config_server.py), and the Client command/get paths (client.py).

Python floats are modelled as rationals (no float arithmetic occurs in the
source: every numeric operation is an identity coercion or a comparison),
Python ints as integers, `frozenset` as `Finset String`, and the
insertion-ordered `dict` as an association list with in-place update.
-/

/-- ActionType enum from constants.py: GET/APPLY/SPAWN/DELETE with their
wire string values. -/
inductive ActionType where
  | GET
  | APPLY
  | SPAWN
  | DELETE
deriving DecidableEq, Repr

/-- The `.value` of an ActionType member (constants.py). -/
def ActionType.value : ActionType → String
  | .GET => "get"
  | .APPLY => "apply"
  | .SPAWN => "spawn"
  | .DELETE => "delete"

/-- `ActionType(s)` in Python: parse a wire string to the enum member,
`none` models the ValueError on an unknown token. -/
def ActionType.ofValue : String → Option ActionType
  | "get" => some .GET
  | "apply" => some .APPLY
  | "spawn" => some .SPAWN
  | "delete" => some .DELETE
  | _ => none

/-- TargetType enum from constants.py: AREA/AGENT/AGENTS/TRACK. -/
inductive TargetType where
  | AREA
  | AGENT
  | AGENTS
  | TRACK
deriving DecidableEq, Repr

/-- The `.value` of a TargetType member (constants.py). -/
def TargetType.value : TargetType → String
  | .AREA => "area"
  | .AGENT => "agent"
  | .AGENTS => "agents"
  | .TRACK => "track"

/-- `TargetType(s)` in Python: parse a wire string, `none` models ValueError. -/
def TargetType.ofValue : String → Option TargetType
  | "area" => some .AREA
  | "agent" => some .AGENT
  | "agents" => some .AGENTS
  | "track" => some .TRACK
  | _ => none

/-- SensorConfigType enum from constants.py. -/
inductive SensorConfigType where
  | FRONT_FACING_CAMERA
  | STEREO_CAMERAS
  | FRONT_FACING_CAMERA_AND_LIDAR
  | STEREO_CAMERAS_AND_LIDAR
  | LIDAR
deriving DecidableEq, Repr

/-- The `.value` of a SensorConfigType member (constants.py). -/
def SensorConfigType.value : SensorConfigType → String
  | .FRONT_FACING_CAMERA => "front_facing_camera"
  | .STEREO_CAMERAS => "stereo_cameras"
  | .FRONT_FACING_CAMERA_AND_LIDAR => "front_facing_camera_and_lidar"
  | .STEREO_CAMERAS_AND_LIDAR => "stereo_cameras_and_lidar"
  | .LIDAR => "lidar"

/-- `SensorConfigType(s)` for a string argument; `none` models ValueError. -/
def SensorConfigType.ofValue : String → Option SensorConfigType
  | "front_facing_camera" => some .FRONT_FACING_CAMERA
  | "stereo_cameras" => some .STEREO_CAMERAS
  | "front_facing_camera_and_lidar" => some .FRONT_FACING_CAMERA_AND_LIDAR
  | "stereo_cameras_and_lidar" => some .STEREO_CAMERAS_AND_LIDAR
  | "lidar" => some .LIDAR
  | _ => none

/-- GameOverConditionType enum from constants.py: ANY="any", ALL="all". -/
inductive GameOverConditionType where
  | ANY
  | ALL
deriving DecidableEq, Repr

/-- The `.value` of a GameOverConditionType member (constants.py). -/
def GameOverConditionType.value : GameOverConditionType → String
  | .ANY => "any"
  | .ALL => "all"

/-- `GameOverConditionType(s)` for a string; `none` models ValueError. -/
def GameOverConditionType.ofValue : String → Option GameOverConditionType
  | "any" => some .ANY
  | "all" => some .ALL
  | _ => none

/-- Modelled from the spec: the TrackLine enum of the external
deepracer_track_geometry package (not part of this repository), used by
Location; only the string-valued-enum interface matters to the core. -/
inductive TrackLine where
  | TRACK_CENTER_LINE
  | INNER_LANE_CENTER_LINE
  | OUTER_LANE_CENTER_LINE
deriving DecidableEq, Repr

/-- The `.value` of a TrackLine member. -/
def TrackLine.value : TrackLine → String
  | .TRACK_CENTER_LINE => "track_center_line"
  | .INNER_LANE_CENTER_LINE => "inner_lane_center_line"
  | .OUTER_LANE_CENTER_LINE => "outer_lane_center_line"

/-- `TrackLine(s)` for a string; `none` models ValueError. -/
def TrackLine.ofValue : String → Option TrackLine
  | "track_center_line" => some .TRACK_CENTER_LINE
  | "inner_lane_center_line" => some .INNER_LANE_CENTER_LINE
  | "outer_lane_center_line" => some .OUTER_LANE_CENTER_LINE
  | _ => none

/-- Modelled from the spec: the TrackDirection enum of the external
deepracer_track_geometry package, values "cw"/"ccw" (spec section 6). -/
inductive TrackDirection where
  | CLOCKWISE
  | COUNTER_CLOCKWISE
deriving DecidableEq, Repr

/-- The `.value` of a TrackDirection member. -/
def TrackDirection.value : TrackDirection → String
  | .CLOCKWISE => "cw"
  | .COUNTER_CLOCKWISE => "ccw"

/-- `TrackDirection(s)` for a string; `none` models ValueError. -/
def TrackDirection.ofValue : String → Option TrackDirection
  | "cw" => some .CLOCKWISE
  | "ccw" => some .COUNTER_CLOCKWISE
  | _ => none

/-- JSON values as produced by the `to_json` encoders and consumed by the
`from_json` decoders: strings, Python ints, Python floats (as rationals),
arrays and objects (insertion-ordered key/value lists, mirroring dict). -/
inductive Json where
  | str (s : String)
  | int (n : Int)
  | num (q : ℚ)
  | arr (xs : List Json)
  | obj (fields : List (String × Json))

/-- `json_obj[k]` on a dict: field lookup, KeyError/TypeError as error. -/
def Json.getField (j : Json) (k : String) : Except String Json :=
  match j with
  | .obj fields =>
    match fields.lookup k with
    | some v => .ok v
    | none => .error ("KeyError: " ++ k)
  | _ => .error "TypeError: not a dict"

/-- `str(x)` where the decoders expect a string field. -/
def Json.asStr : Json → Except String String
  | .str s => .ok s
  | _ => .error "TypeError: expected str"

/-- `int(x)` on a JSON integer field. -/
def Json.asInt : Json → Except String Int
  | .int n => .ok n
  | _ => .error "TypeError: expected int"

/-- `float(x)`: accepts a Python int or float, identity on the value. -/
def Json.asFloat : Json → Except String ℚ
  | .int n => .ok (n : ℚ)
  | .num q => .ok q
  | _ => .error "TypeError: expected float"

/-- Location (configs/location.py): normalized_distance and track_line. -/
structure Location where
  normalized_distance : ℚ
  track_line : TrackLine
deriving DecidableEq, Repr

/-- `Location()` defaults: 0.0 and TRACK_CENTER_LINE. -/
def Location.default : Location :=
  { normalized_distance := 0, track_line := .TRACK_CENTER_LINE }

/-- Location.to_json (configs/location.py). -/
def Location.to_json (l : Location) : Json :=
  .obj [("normalized_distance", .num l.normalized_distance),
        ("track_line", .str l.track_line.value)]

/-- Location.from_json (configs/location.py): field lookups then the
constructor coercions float(...) and TrackLine(...). -/
def Location.from_json (j : Json) : Except String Location := do
  let nd ← (← j.getField "normalized_distance").asFloat
  let tlStr ← (← j.getField "track_line").asStr
  match TrackLine.ofValue tlStr with
  | some tl => .ok { normalized_distance := nd, track_line := tl }
  | none => .error "ValueError: invalid TrackLine"

/-- Area (configs/area.py): game_over_condition plus two frozensets. -/
structure Area where
  game_over_condition : GameOverConditionType
  track_names : Finset String
  shell_names : Finset String
deriving DecidableEq

/-- `Area()` defaults: ANY and two empty frozensets. -/
def Area.default : Area :=
  { game_over_condition := .ANY, track_names := ∅, shell_names := ∅ }

/-- `list(frozenset)`: enumerate a frozenset as a list (order chosen
canonically; only the set of elements is observable through round-trips). -/
def finsetToList (s : Finset String) : List String :=
  s.sort (· ≤ ·)

/-- Area.to_json (configs/area.py): enum value plus the two name lists. -/
def Area.to_json (a : Area) : Json :=
  .obj [("game_over_condition", .str a.game_over_condition.value),
        ("track_names", .arr ((finsetToList a.track_names).map .str)),
        ("shell_names", .arr ((finsetToList a.shell_names).map .str))]

/-- Element-wise string decoding of a JSON array (the iterable handed to
`frozenset`); the first failing element aborts, as a list comprehension
would raise. -/
def decodeStrList : List Json → Except String (List String)
  | [] => .ok []
  | x :: xs => do
    let s ← x.asStr
    let rest ← decodeStrList xs
    .ok (s :: rest)

/-- Decode a JSON array of strings (the iterable handed to `frozenset`). -/
def Json.asStrList : Json → Except String (List String)
  | .arr xs => decodeStrList xs
  | _ => .error "TypeError: expected list"

/-- Area.from_json (configs/area.py): field lookups, then the constructor
coercions GameOverConditionType(...) and frozenset(...). -/
def Area.from_json (j : Json) : Except String Area := do
  let gocStr ← (← j.getField "game_over_condition").asStr
  let tns ← (← j.getField "track_names").asStrList
  let sns ← (← j.getField "shell_names").asStrList
  match GameOverConditionType.ofValue gocStr with
  | some goc => .ok { game_over_condition := goc,
                      track_names := tns.toFinset,
                      shell_names := sns.toFinset }
  | none => .error "ValueError: invalid GameOverConditionType"

/-- Track (configs/track.py): name, finish_line, direction. -/
structure Track where
  name : String
  finish_line : ℚ
  direction : TrackDirection
deriving DecidableEq, Repr

/-- `Track()` defaults: DEFAULT_TRACK="spain", 0.0, COUNTER_CLOCKWISE. -/
def Track.default : Track :=
  { name := "spain", finish_line := 0, direction := .COUNTER_CLOCKWISE }

/-- Track.to_json (configs/track.py). -/
def Track.to_json (t : Track) : Json :=
  .obj [("name", .str t.name),
        ("finish_line", .num t.finish_line),
        ("direction", .str t.direction.value)]

/-- Track.from_json (configs/track.py): field lookups then the constructor
coercions str(...), float(...), TrackDirection(...). -/
def Track.from_json (j : Json) : Except String Track := do
  let nm ← (← j.getField "name").asStr
  let fl ← (← j.getField "finish_line").asFloat
  let dirStr ← (← j.getField "direction").asStr
  match TrackDirection.ofValue dirStr with
  | some dir => .ok { name := nm, finish_line := fl, direction := dir }
  | none => .error "ValueError: invalid TrackDirection"

/-- Agent (configs/agent.py extending configs/behaviour.py): behaviour
fields name/shell/start_location plus the agent-specific fields. -/
structure Agent where
  name : String
  shell : String
  sensor_config_type : SensorConfigType
  start_location : Location
  life_count : Int
  lap_count : Int
  offtrack_penalty : ℚ
  crash_penalty : ℚ
deriving DecidableEq, Repr

/-- The validation performed by Agent.__init__ (and maintained by every
setter): lap_count at least 1 and non-negative penalties. Every Agent that
exists at Python runtime satisfies this. -/
def Agent.isValid (a : Agent) : Bool :=
  1 ≤ a.lap_count && 0 ≤ a.offtrack_penalty && 0 ≤ a.crash_penalty

/-- Agent.__init__: builds the agent, raising ValueError (modelled as
`.error`) when lap_count < 1 or a penalty is negative, in source order. -/
def Agent.init (name shell : String) (sensor : SensorConfigType)
    (loc : Location) (life lap : Int) (offp crashp : ℚ) :
    Except String Agent :=
  if lap < 1 then .error "ValueError: lap_count must be greater than 0"
  else if offp < 0 then .error "ValueError: offtrack_penalty must be positive"
  else if crashp < 0 then .error "ValueError: crash_penalty must be positive"
  else .ok { name := name, shell := shell, sensor_config_type := sensor,
             start_location := loc, life_count := life, lap_count := lap,
             offtrack_penalty := offp, crash_penalty := crashp }

/-- `Agent()` defaults: DEFAULT_AGENT_NAME="agent0",
DEFAULT_SHELL="deepracer_black", FRONT_FACING_CAMERA, default Location,
life 0, lap 1, penalties 0.0. -/
def Agent.default : Agent :=
  { name := "agent0", shell := "deepracer_black",
    sensor_config_type := .FRONT_FACING_CAMERA,
    start_location := Location.default,
    life_count := 0, lap_count := 1,
    offtrack_penalty := 0, crash_penalty := 0 }

/-- Agent.to_json (configs/agent.py): the Behaviour fields followed by the
agent fields, in dict insertion order. -/
def Agent.to_json (a : Agent) : Json :=
  .obj [("name", .str a.name),
        ("shell", .str a.shell),
        ("start_location", a.start_location.to_json),
        ("sensor_config_type", .str a.sensor_config_type.value),
        ("life_count", .int a.life_count),
        ("lap_count", .int a.lap_count),
        ("offtrack_penalty", .num a.offtrack_penalty),
        ("crash_penalty", .num a.crash_penalty)]

/-- Agent.from_json (configs/agent.py): field lookups, nested
Location.from_json, then Agent.__init__ with its validation. -/
def Agent.from_json (j : Json) : Except String Agent := do
  let nm ← (← j.getField "name").asStr
  let sh ← (← j.getField "shell").asStr
  let scStr ← (← j.getField "sensor_config_type").asStr
  let loc ← Location.from_json (← j.getField "start_location")
  let life ← (← j.getField "life_count").asInt
  let lap ← (← j.getField "lap_count").asInt
  let offp ← (← j.getField "offtrack_penalty").asFloat
  let crashp ← (← j.getField "crash_penalty").asFloat
  match SensorConfigType.ofValue scStr with
  | some sc => Agent.init nm sh sc loc life lap offp crashp
  | none => .error "ValueError: invalid SensorConfigType"


/-- Data on the side channel wire. Every payload is a Python string; the
model distinguishes the strings produced by `json.dumps` (carrying their
JSON value) from other raw strings — the empty get-request payload and
bare agent names, which are not valid JSON texts. -/
inductive SideChannelData where
  | rawStr (s : String)
  | jsonText (j : Json)

mutual

/-- `json.dumps` (text formatting of numbers abstracted by `toString`;
no claim depends on the exact characters of a dumped JSON value). -/
def Json.dumps : Json → String
  | .str s => "\x22" ++ s ++ "\x22"
  | .int n => toString n
  | .num q => toString q
  | .arr xs => "[" ++ Json.dumpsList xs ++ "]"
  | .obj fs => "\x7b" ++ Json.dumpsFields fs ++ "\x7d"

/-- Comma-separated rendering of array elements. -/
def Json.dumpsList : List Json → String
  | [] => ""
  | [x] => Json.dumps x
  | x :: y :: rest => Json.dumps x ++ ", " ++ Json.dumpsList (y :: rest)

/-- Comma-separated rendering of object fields. -/
def Json.dumpsFields : List (String × Json) → String
  | [] => ""
  | [(k, v)] => "\x22" ++ k ++ "\x22: " ++ Json.dumps v
  | (k, v) :: p :: rest =>
    "\x22" ++ k ++ "\x22: " ++ Json.dumps v ++ ", " ++ Json.dumpsFields (p :: rest)

end

/-- The Python string a SideChannelData stands for. -/
def SideChannelData.text : SideChannelData → String
  | .rawStr s => s
  | .jsonText j => j.dumps

/-- `json.loads` on a wire payload: recovers the JSON value of a dumped
text, raises (ValueError, modelled as `.error`) on the raw non-JSON
strings used as get payloads and names. -/
def SideChannelData.loads : SideChannelData → Except String Json
  | .rawStr _ => .error "ValueError: invalid JSON"
  | .jsonText j => .ok j

/-- The `Union[T, dict]` (or the wire string, at dispatch time) accepted
by the server mutators. -/
inductive ConfigArg (α : Type) where
  | obj (x : α)
  | dict (j : Json)
  | text (d : SideChannelData)

/-- `x if isinstance(x, T) else T.from_json(x)`: a live instance passes
through, a dict goes to from_json, a wire string is json.loads-ed first
(the str branch inside from_json). -/
def ConfigArg.decode (fromJson : Json → Except String α) :
    ConfigArg α → Except String α
  | .obj x => .ok x
  | .dict j => fromJson j
  | .text d => do fromJson (← d.loads)

/-- In-place update-or-append of the insertion-ordered dict:
`d[k] = v` keeps the position of an existing key, appends a new one. -/
def dictSet : List (String × Agent) → String → Agent → List (String × Agent)
  | [], k, v => [(k, v)]
  | (k0, v0) :: rest, k, v =>
    if k0 = k then (k0, v) :: rest else (k0, v0) :: dictSet rest k v

/-- `d.pop(k, None)`: drop the entry with the given key, if any. -/
def dictPop : List (String × Agent) → String → List (String × Agent)
  | [], _ => []
  | (k0, v0) :: rest, k =>
    if k0 = k then rest else (k0, v0) :: dictPop rest k

/-- `k in d`. -/
def dictContains (m : List (String × Agent)) (k : String) : Bool :=
  (m.lookup k).isSome

/-- The server-owned state: one Area, one Track and the agent registry
(an insertion-ordered dict from agent name to Agent). -/
structure ServerState where
  area : Area
  track : Track
  agent_map : List (String × Agent)
deriving DecidableEq

/-- The registry well-formedness every Python run maintains: distinct
keys, each entry keyed by its agent's name, each agent satisfying the
constructor invariant. -/
def ServerState.wf (s : ServerState) : Prop :=
  (s.agent_map.map Prod.fst).Nodup ∧
    ∀ p ∈ s.agent_map, (p.2).name = p.1 ∧ (p.2).isValid = true

instance (s : ServerState) : Decidable s.wf := by
  unfold ServerState.wf; infer_instance

/-- ConfigServer.__init__ (config_server.py): `area or Area()`,
`track or Track()`, `list(agents) if agents else [Agent()]` (both None
and an empty iterable are falsy), then the dict comprehension keyed by
agent name (later duplicates overwrite, dict-style). -/
def ConfigServer.init (area : Option Area) (track : Option Track)
    (agents : Option (List Agent)) : ServerState :=
  let agentList := match agents with
    | some l => if l.isEmpty then [Agent.default] else l
    | none => [Agent.default]
  { area := area.getD Area.default,
    track := track.getD Track.default,
    agent_map := agentList.foldl (fun m a => dictSet m a.name a) [] }

/-- ConfigServer.get_area: returns a defensive copy, equal in value. -/
def ConfigServer.get_area (s : ServerState) : Area := s.area

/-- ConfigServer.get_track. -/
def ConfigServer.get_track (s : ServerState) : Track := s.track

/-- ConfigServer.get_agents: the registry values in dict order (copies). -/
def ConfigServer.get_agents (s : ServerState) : List Agent :=
  s.agent_map.map Prod.snd

/-- ConfigServer.get_agent: absent-name lookups return the None sentinel,
never raise. -/
def ConfigServer.get_agent (s : ServerState) (name : String) : Option Agent :=
  s.agent_map.lookup name

/-- ConfigServer.apply_area: decode-if-needed, replace wholesale. -/
def ConfigServer.apply_area (s : ServerState) (arg : ConfigArg Area) :
    Except String ServerState :=
  (arg.decode Area.from_json).map fun a => { s with area := a }

/-- ConfigServer.apply_track: decode-if-needed, replace wholesale. -/
def ConfigServer.apply_track (s : ServerState) (arg : ConfigArg Track) :
    Except String ServerState :=
  (arg.decode Track.from_json).map fun t => { s with track := t }

/-- ConfigServer.apply_agent: decode-if-needed, then replace the registry
entry only when the name is already present. -/
def ConfigServer.apply_agent (s : ServerState) (arg : ConfigArg Agent) :
    Except String ServerState :=
  (arg.decode Agent.from_json).map fun a =>
    if dictContains s.agent_map a.name then
      { s with agent_map := dictSet s.agent_map a.name a }
    else s

/-- ConfigServer.spawn_agent: decode-if-needed, unconditional upsert. -/
def ConfigServer.spawn_agent (s : ServerState) (arg : ConfigArg Agent) :
    Except String ServerState :=
  (arg.decode Agent.from_json).map fun a =>
    { s with agent_map := dictSet s.agent_map a.name a }

/-- ConfigServer.delete_agent: only when the registry holds more than one
entry does it decode and pop; on a single-entry registry nothing happens
(the argument is not even decoded). -/
def ConfigServer.delete_agent (s : ServerState) (arg : ConfigArg Agent) :
    Except String ServerState :=
  if s.agent_map.length > 1 then
    (arg.decode Agent.from_json).map fun a =>
      { s with agent_map := dictPop s.agent_map a.name }
  else .ok s

/-- A value returned by a handler, as the dispatch loop discriminates it:
a single ConfigInterface entity, a list (of agents), or Python None. -/
inductive Entity where
  | area (a : Area)
  | agent (a : Agent)
  | track (t : Track)

/-- Polymorphic to_json over the entity variants. -/
def Entity.to_json : Entity → Json
  | .area a => a.to_json
  | .agent a => a.to_json
  | .track t => t.to_json

/-- Handler return values. -/
inductive HandlerResult where
  | entity (e : Entity)
  | list (l : List Agent)
  | nil

/-- `getattr(self, "action_target")`: the nine methods that exist on
ConfigServer, each wrapped as a handler taking the message payload; the
seven other action/target combinations have no method (`none`). -/
def resolveHandler (act : ActionType) (tgt : TargetType) :
    Option (ServerState → SideChannelData →
            Except String (ServerState × HandlerResult)) :=
  match act, tgt with
  | .GET, .AREA => some fun s _ =>
      .ok (s, .entity (.area (ConfigServer.get_area s)))
  | .GET, .AGENT => some fun s v =>
      .ok (s, match ConfigServer.get_agent s v.text with
              | some a => .entity (.agent a)
              | none => .nil)
  | .GET, .AGENTS => some fun s _ =>
      .ok (s, .list (ConfigServer.get_agents s))
  | .GET, .TRACK => some fun s _ =>
      .ok (s, .entity (.track (ConfigServer.get_track s)))
  | .APPLY, .AREA => some fun s v =>
      (ConfigServer.apply_area s (.text v)).map fun s2 => (s2, .nil)
  | .APPLY, .AGENT => some fun s v =>
      (ConfigServer.apply_agent s (.text v)).map fun s2 => (s2, .nil)
  | .APPLY, .TRACK => some fun s v =>
      (ConfigServer.apply_track s (.text v)).map fun s2 => (s2, .nil)
  | .SPAWN, .AGENT => some fun s v =>
      (ConfigServer.spawn_agent s (.text v)).map fun s2 => (s2, .nil)
  | .DELETE, .AGENT => some fun s v =>
      (ConfigServer.delete_agent s (.text v)).map fun s2 => (s2, .nil)
  | _, _ => none

/-- `str.startswith` on Python strings. -/
def pyStartsWith (s pre : String) : Bool :=
  pre.toList.isPrefixOf s.toList

/-- Worker for `str.split(sep)` with a non-empty separator: scan left to
right, emitting a field at each separator occurrence. The fuel only
bounds the recursion; `pySplit` passes enough for the whole string. -/
def pySplitAux (sep : List Char) : Nat → List Char → List Char →
    List (List Char)
  | 0, cs, acc => [acc.reverse ++ cs]
  | _ + 1, [], acc => [acc.reverse]
  | fuel + 1, c :: rest, acc =>
    if sep.isPrefixOf (c :: rest) then
      acc.reverse :: pySplitAux sep fuel ((c :: rest).drop sep.length) []
    else
      pySplitAux sep fuel rest (c :: acc)

/-- Python `s.split(sep)` for a non-empty separator. -/
def pySplit (s sep : String) : List String :=
  (pySplitAux sep.toList (s.toList.length + 1) s.toList []).map
    fun cs => ⟨cs⟩

/-- What one call of ConfigServer.on_received does: the state afterwards,
the replies sent on the side channel, and the exception escaping to the
caller, if any. -/
structure DispatchOutcome where
  state : ServerState
  sent : List (String × SideChannelData)
  raised : Option String

/-- ConfigServer.on_received (config_server.py lines 187-226). Keys not
carrying the reserved text are ignored; the key is split on "::" into
exactly three parts and the action/target tokens parsed, any failure
being caught and logged (dropped); the handler is then resolved by
getattr — OUTSIDE any try/except, so a missing method raises
AttributeError to the caller; a handler exception is caught (dropped);
a GET result is sent back on the same key, a single entity as its dumped
to_json, a list element-wise. -/
def ConfigServer.on_received (s : ServerState) (key : String)
    (value : SideChannelData) : DispatchOutcome :=
  if ¬ pyStartsWith key "deepracer_config" then
    { state := s, sent := [], raised := none }
  else
    match pySplit key "::" with
    | [p, actionStr, targetStr] =>
      if p ≠ "deepracer_config" then
        { state := s, sent := [], raised := none }
      else
        match ActionType.ofValue actionStr, TargetType.ofValue targetStr with
        | some act, some tgt =>
          match resolveHandler act tgt with
          | none =>
            { state := s, sent := [],
              raised := some "AttributeError" }
          | some method =>
            match method s value with
            | .error _ => { state := s, sent := [], raised := none }
            | .ok (s2, config) =>
              if act = .GET then
                match config with
                | .entity e =>
                  { state := s2,
                    sent := [(key, .jsonText e.to_json)], raised := none }
                | .list l =>
                  { state := s2,
                    sent := [(key, .jsonText (.arr (l.map Agent.to_json)))],
                    raised := none }
                | .nil => { state := s2, sent := [], raised := none }
              else { state := s2, sent := [], raised := none }
        | _, _ => { state := s, sent := [], raised := none }
    | _ => { state := s, sent := [], raised := none }

/-- The successful parse of a dispatch key, mirroring the guard chain of
on_received: reserved leading text present, exactly three fields, the
first equal to the reserved text, action and target tokens known. -/
def parsedKey (key : String) : Option (ActionType × TargetType) :=
  if pyStartsWith key "deepracer_config" then
    match pySplit key "::" with
    | [p, actionStr, targetStr] =>
      if p = "deepracer_config" then
        match ActionType.ofValue actionStr, TargetType.ofValue targetStr with
        | some act, some tgt => some (act, tgt)
        | _, _ => none
      else none
    | _ => none
  else none

/-- Client.KEY_FORMAT.format(action, target) (client.py). -/
def Client.key (act : ActionType) (tgt : TargetType) : String :=
  "deepracer_config" ++ "::" ++ act.value ++ "::" ++ tgt.value

/-- What a fire-and-forget client command does: the messages it sends, or
the ValueError it raises synchronously (sending nothing). -/
def ClientSend := Except String (List (String × SideChannelData))

/-- Client.apply_area (client.py lines 167-176): NO isinstance check —
whatever entity is passed gets encoded and sent under the apply::area
key. -/
def Client.apply_area (e : Entity) : ClientSend :=
  .ok [(Client.key .APPLY .AREA, .jsonText e.to_json)]

/-- Client.apply_agent: isinstance(agent, Agent) check, ValueError on any
other variant, else send the encoding under apply::agent. -/
def Client.apply_agent (e : Entity) : ClientSend :=
  match e with
  | .agent a => .ok [(Client.key .APPLY .AGENT, .jsonText a.to_json)]
  | _ => .error "ValueError: Expected Agent type"

/-- Client.apply_track: isinstance(track, Track) check, ValueError
otherwise, else send under apply::track. -/
def Client.apply_track (e : Entity) : ClientSend :=
  match e with
  | .track t => .ok [(Client.key .APPLY .TRACK, .jsonText t.to_json)]
  | _ => .error "ValueError: Expected Track type"

/-- Client.spawn_agent: isinstance(agent, Agent) check, ValueError
otherwise, else send under spawn::agent. -/
def Client.spawn_agent (e : Entity) : ClientSend :=
  match e with
  | .agent a => .ok [(Client.key .SPAWN .AGENT, .jsonText a.to_json)]
  | _ => .error "ValueError: Expected Agent type"

/-- Client.delete_agent: isinstance(agent, Agent) check, ValueError
otherwise, else send under delete::agent. -/
def Client.delete_agent (e : Entity) : ClientSend :=
  match e with
  | .agent a => .ok [(Client.key .DELETE .AGENT, .jsonText a.to_json)]
  | _ => .error "ValueError: Expected Agent type"

/-- Result of one whole Client._get call. -/
inductive GetOutcome where
  | ok (attempt : Nat)
  | timeout (retries : Nat)
deriving DecidableEq, Repr

/-- The `while True` loop body of Client._get, driven by an oracle giving
each attempt's `condition.wait(timeout)` outcome. Each iteration sends
once; a satisfied wait returns; a lapsed wait increments try_count and
raises TimeoutError (carrying max_retry_attempts) once
try_count > max_retry_attempts. The fuel argument only bounds recursion
and is chosen so that it never runs out (see clientGet_spec lemmas). -/
def Client.getLoopAux (wait : Nat → Bool) (maxRetry : Nat) :
    Nat → Nat → Nat × GetOutcome
  | _, 0 => (0, .timeout maxRetry)
  | i, fuel + 1 =>
    if wait i then (1, .ok i)
    else if i + 1 > maxRetry then (1, .timeout maxRetry)
    else
      let r := Client.getLoopAux wait maxRetry (i + 1) fuel
      (r.1 + 1, r.2)

/-- Client._get (client.py lines 104-129): the number of sends performed
on the side channel and the outcome, for a run whose wait results are
given by the oracle (`wait i` = whether the i-th attempt's
condition.wait(timeout) was satisfied). -/
def Client.get (wait : Nat → Bool) (maxRetry : Nat) : Nat × GetOutcome :=
  Client.getLoopAux wait maxRetry 0 (maxRetry + 1)

/-- Element-wise Agent decoding of a get(agents) reply (the list
comprehension in Client.get_agents). -/
def decodeAgentList : List Json → Except String (List Agent)
  | [] => .ok []
  | x :: xs => do
    let a ← Agent.from_json x
    let rest ← decodeAgentList xs
    .ok (a :: rest)

/-- The decoding Client.get_agents applies to the JSON stored by
on_received for the get::agents key. -/
def Client.decode_agents (j : Json) : Except String (List Agent) :=
  match j with
  | .arr xs => decodeAgentList xs
  | _ => .error "TypeError: expected list"

/-!
Interleaving model of the Client._get / Client.on_received handoff for
one Correlation Key. The getter thread runs the retry loop of _get; the
deliverer thread runs the body of on_received once (one response). Both
critical sections are serialized by the condition lock, so each runs
atomically with respect to the other: `sendWait` bundles
acquire-send-wait entry (the lock is held from the acquire to the moment
wait releases it, so a delivery can never interleave between a send and
its wait-begin), and `deliver` bundles acquire-store-notify-release.
A wait that was notified returns True; `timeoutFire` (the wait lapsing)
is only possible while the getter is waiting un-notified.
-/

/-- Getter-thread program counter inside Client._get. -/
inductive GetterPc where
  | ready (i : Nat)
  | waiting (i : Nat)
  | notified (i : Nat)
  | success (i : Nat)
  | timedOut
deriving DecidableEq, Repr

/-- Shared state of the handoff: the getter position, whether
_res_map holds the key, whether the single response was delivered. -/
structure HandoffState where
  pc : GetterPc
  res : Bool
  delivered : Bool
  maxRetry : Nat
deriving DecidableEq, Repr

/-- The atomic events of the two threads. -/
inductive HandoffEv where
  | sendWait
  | deliver
  | wakeup
  | timeoutFire
deriving DecidableEq, Repr

/-- One atomic step; events fire only when enabled, otherwise the state
is unchanged. `deliver` stores the result and notifies: a waiting getter
becomes notified, otherwise the notification is lost (notify_all with no
waiter) though the result stays stored. `timeoutFire` on attempt i
increments try_count to i+1 and raises once i+1 > max_retry_attempts,
else loops back to re-send. `wakeup` returns the stored result: _get
does `if condition.wait(timeout): return self._res_map[key]` — it never
re-checks _res_map before waiting. -/
def handoffStep (st : HandoffState) : HandoffEv → HandoffState
  | .sendWait =>
    match st.pc with
    | .ready i => { st with pc := .waiting i }
    | _ => st
  | .deliver =>
    if st.delivered then st
    else
      match st.pc with
      | .waiting i => { st with pc := .notified i, res := true, delivered := true }
      | _ => { st with res := true, delivered := true }
  | .wakeup =>
    match st.pc with
    | .notified i => { st with pc := .success i }
    | _ => st
  | .timeoutFire =>
    match st.pc with
    | .waiting i =>
      if i + 1 > st.maxRetry then { st with pc := .timedOut }
      else { st with pc := .ready (i + 1) }
    | _ => st

/-- Run a schedule of events. -/
def handoffRun (st : HandoffState) : List HandoffEv → HandoffState
  | [] => st
  | e :: es => handoffRun (handoffStep st e) es

/-- State at the start of a _get call. -/
def handoffInit (maxRetry : Nat) : HandoffState :=
  { pc := .ready 0, res := false, delivered := false, maxRetry := maxRetry }


/-- A server constructed with all defaults: default Area and Track and
the single default Agent under its name. -/
def sampleServer : ServerState := ConfigServer.init none none none

/-- A server constructed with two agents, agent0 and bot1. -/
def sampleServer2 : ServerState :=
  ConfigServer.init none none
    (some [Agent.default, { Agent.default with name := "bot1" }])

/-- A lookup off the key set yields none. -/
theorem dict_lookup_eq_none (m : List (String × Agent)) (k : String)
    (h : k ∉ m.map Prod.fst) : m.lookup k = none := by
  induction m with
  | nil => rfl
  | cons p rest ih =>
    obtain ⟨k0, v0⟩ := p
    simp only [List.map_cons, List.mem_cons, not_or] at h
    obtain ⟨h1, h2⟩ := h
    simp [List.lookup, beq_false_of_ne h1, ih h2]

/-- dictSet never yields the empty dict. -/
theorem dictSet_ne_nil (m : List (String × Agent)) (k : String) (v : Agent) :
    dictSet m k v ≠ [] := by
  cases m with
  | nil => simp [dictSet]
  | cons p rest =>
    obtain ⟨k0, v0⟩ := p
    by_cases h : k0 = k <;> simp [dictSet, h]

/-- dictSet writes its value under its key. -/
theorem dictSet_lookup_self (m : List (String × Agent)) (k : String)
    (v : Agent) : (dictSet m k v).lookup k = some v := by
  induction m with
  | nil => simp [dictSet, List.lookup]
  | cons p rest ih =>
    obtain ⟨k0, v0⟩ := p
    by_cases h : k0 = k
    · subst h
      simp [dictSet, List.lookup]
    · simp [dictSet, h, List.lookup, beq_false_of_ne (Ne.symm h), ih]

/-- dictSet leaves every other key untouched. -/
theorem dictSet_lookup_ne (m : List (String × Agent)) (k k2 : String)
    (v : Agent) (hne : k2 ≠ k) :
    (dictSet m k v).lookup k2 = m.lookup k2 := by
  induction m with
  | nil => simp [dictSet, List.lookup, beq_false_of_ne hne]
  | cons p rest ih =>
    obtain ⟨k0, v0⟩ := p
    by_cases h : k0 = k
    · subst h
      simp [dictSet, List.lookup, beq_false_of_ne hne]
    · by_cases h2 : k2 = k0
      · subst h2
        simp [dictSet, h, List.lookup]
      · simp [dictSet, h, List.lookup, beq_false_of_ne h2, ih]

/-- dictSet on a present key keeps the key list unchanged. -/
theorem dictSet_keys_of_contains (m : List (String × Agent)) (k : String)
    (v : Agent) (h : dictContains m k = true) :
    (dictSet m k v).map Prod.fst = m.map Prod.fst := by
  induction m with
  | nil => simp [dictContains, List.lookup] at h
  | cons p rest ih =>
    obtain ⟨k0, v0⟩ := p
    by_cases hk : k0 = k
    · simp [dictSet, hk]
    · simp only [dictContains, List.lookup,
                 beq_false_of_ne (Ne.symm hk)] at h
      simp [dictSet, hk, ih h]

/-- dictSet on an absent key appends it. -/
theorem dictSet_keys_of_not_contains (m : List (String × Agent)) (k : String)
    (v : Agent) (h : dictContains m k = false) :
    (dictSet m k v).map Prod.fst = m.map Prod.fst ++ [k] := by
  induction m with
  | nil => simp [dictSet]
  | cons p rest ih =>
    obtain ⟨k0, v0⟩ := p
    by_cases hk : k0 = k
    · subst hk
      simp [dictContains, List.lookup] at h
    · simp only [dictContains, List.lookup,
                 beq_false_of_ne (Ne.symm hk)] at h
      simp [dictSet, hk, ih h]

/-- Writing the same key twice keeps only the second value. -/
theorem dictSet_dictSet_same (m : List (String × Agent)) (k : String)
    (v1 v2 : Agent) : dictSet (dictSet m k v1) k v2 = dictSet m k v2 := by
  induction m with
  | nil => simp [dictSet]
  | cons p rest ih =>
    obtain ⟨k0, v0⟩ := p
    by_cases h : k0 = k <;> simp [dictSet, h, ih]

/-- dictPop removes at most one entry. -/
theorem dictPop_length_ge (m : List (String × Agent)) (k : String) :
    m.length ≤ (dictPop m k).length + 1 := by
  induction m with
  | nil => simp [dictPop]
  | cons p rest ih =>
    obtain ⟨k0, v0⟩ := p
    by_cases h : k0 = k
    · simp [dictPop, h]
    · simp only [dictPop, h, if_false, List.length_cons]
      omega

/-- dictPop on a present key removes exactly one entry. -/
theorem dictPop_length_of_contains (m : List (String × Agent)) (k : String)
    (h : dictContains m k = true) :
    (dictPop m k).length + 1 = m.length := by
  induction m with
  | nil => simp [dictContains, List.lookup] at h
  | cons p rest ih =>
    obtain ⟨k0, v0⟩ := p
    by_cases hk : k0 = k
    · simp [dictPop, hk]
    · simp only [dictContains, List.lookup,
                 beq_false_of_ne (Ne.symm hk)] at h
      simp [dictPop, hk, ih h]

/-- After dictPop with distinct keys, the popped key is gone. -/
theorem dictPop_lookup_self (m : List (String × Agent)) (k : String)
    (h : (m.map Prod.fst).Nodup) : (dictPop m k).lookup k = none := by
  induction m with
  | nil => rfl
  | cons p rest ih =>
    obtain ⟨k0, v0⟩ := p
    simp only [List.map_cons, List.nodup_cons] at h
    obtain ⟨h1, h2⟩ := h
    by_cases hk : k0 = k
    · subst hk
      simpa [dictPop] using dict_lookup_eq_none rest k0 h1
    · simp [dictPop, hk, List.lookup, beq_false_of_ne (Ne.symm hk), ih h2]

/-- dictPop leaves every other key untouched. -/
theorem dictPop_lookup_ne (m : List (String × Agent)) (k k2 : String)
    (hne : k2 ≠ k) : (dictPop m k).lookup k2 = m.lookup k2 := by
  induction m with
  | nil => rfl
  | cons p rest ih =>
    obtain ⟨k0, v0⟩ := p
    by_cases hk : k0 = k
    · subst hk
      simp [dictPop, List.lookup, beq_false_of_ne hne]
    · by_cases h2 : k2 = k0
      · subst h2
        simp [dictPop, hk, List.lookup]
      · simp [dictPop, hk, List.lookup, beq_false_of_ne h2, ih]


/-- Round-trip of the enum value strings. -/
theorem trackLine_ofValue_value (t : TrackLine) :
    TrackLine.ofValue t.value = some t := by cases t <;> rfl

theorem trackDirection_ofValue_value (d : TrackDirection) :
    TrackDirection.ofValue d.value = some d := by cases d <;> rfl

theorem sensorConfigType_ofValue_value (s : SensorConfigType) :
    SensorConfigType.ofValue s.value = some s := by cases s <;> rfl

theorem gameOverConditionType_ofValue_value (g : GameOverConditionType) :
    GameOverConditionType.ofValue g.value = some g := by cases g <;> rfl

/-- Decoding a list of JSON strings is the identity. -/
theorem decodeStrList_map_str (l : List String) :
    decodeStrList (l.map .str) = .ok l := by
  induction l with
  | nil => rfl
  | cons x xs ih =>
    simp [decodeStrList, Json.asStr, bind, Except.bind, ih]

/-- Decoding an array of JSON strings is the identity. -/
theorem Json.asStrList_map_str (l : List String) :
    Json.asStrList (.arr (l.map .str)) = .ok l := by
  simp [Json.asStrList, decodeStrList_map_str]

/-- Location encode/decode round-trip is lossless. -/
theorem location_from_json_to_json (l : Location) :
    Location.from_json l.to_json = .ok l := by
  simp [Location.from_json, Location.to_json, Json.getField, Json.asFloat,
        Json.asStr, List.lookup, bind, Except.bind, trackLine_ofValue_value]

/-- Area encode/decode round-trip is lossless (the frozensets survive the
list round-trip). -/
theorem area_from_json_to_json (a : Area) :
    Area.from_json a.to_json = .ok a := by
  simp [Area.from_json, Area.to_json, Json.getField, Json.asStr,
        List.lookup, bind, Except.bind, Json.asStrList_map_str,
        gameOverConditionType_ofValue_value, finsetToList,
        Finset.sort_toFinset]

/-- Track encode/decode round-trip is lossless. -/
theorem track_from_json_to_json (t : Track) :
    Track.from_json t.to_json = .ok t := by
  simp [Track.from_json, Track.to_json, Json.getField, Json.asStr,
        Json.asFloat, List.lookup, bind, Except.bind,
        trackDirection_ofValue_value]

/-- Agent encode/decode round-trip is lossless for every Agent satisfying
the constructor invariant. -/
theorem agent_from_json_to_json (a : Agent) (h : a.isValid = true) :
    Agent.from_json a.to_json = .ok a := by
  simp only [Agent.isValid, Bool.and_eq_true, decide_eq_true_eq] at h
  obtain ⟨⟨h1, h2⟩, h3⟩ := h
  simp [Agent.from_json, Agent.to_json, Json.getField, Json.asStr,
        Json.asInt, Json.asFloat, List.lookup, bind, Except.bind,
        location_from_json_to_json, sensorConfigType_ofValue_value,
        Agent.init, not_lt.mpr h1, not_lt.mpr h2, not_lt.mpr h3]

/-- Dispatch characterized through the parsed key: this is on_received
with its guard chain folded into parsedKey. -/
theorem on_received_eq (s : ServerState) (key : String)
    (value : SideChannelData) :
    ConfigServer.on_received s key value =
      match parsedKey key with
      | none => { state := s, sent := [], raised := none }
      | some (act, tgt) =>
        match resolveHandler act tgt with
        | none => { state := s, sent := [], raised := some "AttributeError" }
        | some method =>
          match method s value with
          | .error _ => { state := s, sent := [], raised := none }
          | .ok (s2, config) =>
            if act = .GET then
              match config with
              | .entity e =>
                { state := s2, sent := [(key, .jsonText e.to_json)],
                  raised := none }
              | .list l =>
                { state := s2,
                  sent := [(key, .jsonText (.arr (l.map Agent.to_json)))],
                  raised := none }
              | .nil => { state := s2, sent := [], raised := none }
            else { state := s2, sent := [], raised := none } := by
  unfold ConfigServer.on_received parsedKey
  by_cases hs : pyStartsWith key "deepracer_config"
  · rw [if_neg (by simp [hs]), if_pos hs]
    cases hsp : pySplit key "::" with
    | nil => rfl
    | cons p l1 =>
      cases l1 with
      | nil => rfl
      | cons a2 l2 =>
        cases l2 with
        | nil => rfl
        | cons a3 l3 =>
          cases l3 with
          | cons a4 l4 => rfl
          | nil =>
            dsimp only
            by_cases hp : p = "deepracer_config"
            · rw [if_neg (not_not_intro hp), if_pos hp]
              cases ActionType.ofValue a2 <;> cases TargetType.ofValue a3 <;> rfl
            · rw [if_pos hp, if_neg hp]
  · rw [if_pos (by simp [hs]), if_neg hs]

/-- apply_area only replaces the area. -/
theorem apply_area_ok (s s2 : ServerState) (arg : ConfigArg Area)
    (h : ConfigServer.apply_area s arg = .ok s2) :
    s2.agent_map = s.agent_map ∧ s2.track = s.track := by
  cases hd : arg.decode Area.from_json with
  | error e => simp [ConfigServer.apply_area, hd, Except.map] at h
  | ok a =>
    simp only [ConfigServer.apply_area, hd, Except.map, Except.ok.injEq] at h
    subst h
    exact ⟨rfl, rfl⟩

/-- apply_track only replaces the track. -/
theorem apply_track_ok (s s2 : ServerState) (arg : ConfigArg Track)
    (h : ConfigServer.apply_track s arg = .ok s2) :
    s2.agent_map = s.agent_map ∧ s2.area = s.area := by
  cases hd : arg.decode Track.from_json with
  | error e => simp [ConfigServer.apply_track, hd, Except.map] at h
  | ok t =>
    simp only [ConfigServer.apply_track, hd, Except.map, Except.ok.injEq] at h
    subst h
    exact ⟨rfl, rfl⟩

/-- The registry apply_agent leaves behind: unchanged, or a dictSet on a
present key. -/
theorem apply_agent_ok (s s2 : ServerState) (arg : ConfigArg Agent)
    (h : ConfigServer.apply_agent s arg = .ok s2) :
    s2.area = s.area ∧ s2.track = s.track ∧
      (s2.agent_map = s.agent_map ∨
        ∃ a, s2.agent_map = dictSet s.agent_map a.name a) := by
  cases hd : arg.decode Agent.from_json with
  | error e => simp [ConfigServer.apply_agent, hd, Except.map] at h
  | ok a =>
    simp only [ConfigServer.apply_agent, hd, Except.map, Except.ok.injEq] at h
    by_cases hc : dictContains s.agent_map a.name
    · rw [if_pos hc] at h
      subst h
      exact ⟨rfl, rfl, Or.inr ⟨a, rfl⟩⟩
    · rw [if_neg hc] at h
      subst h
      exact ⟨rfl, rfl, Or.inl rfl⟩

/-- The registry spawn_agent leaves behind: always a dictSet. -/
theorem spawn_agent_ok (s s2 : ServerState) (arg : ConfigArg Agent)
    (h : ConfigServer.spawn_agent s arg = .ok s2) :
    s2.area = s.area ∧ s2.track = s.track ∧
      ∃ a, s2.agent_map = dictSet s.agent_map a.name a := by
  cases hd : arg.decode Agent.from_json with
  | error e => simp [ConfigServer.spawn_agent, hd, Except.map] at h
  | ok a =>
    simp only [ConfigServer.spawn_agent, hd, Except.map, Except.ok.injEq] at h
    subst h
    exact ⟨rfl, rfl, a, rfl⟩

/-- The registry delete_agent leaves behind: unchanged when it held at
most one entry, else unchanged or a dictPop. -/
theorem delete_agent_ok (s s2 : ServerState) (arg : ConfigArg Agent)
    (h : ConfigServer.delete_agent s arg = .ok s2) :
    s2.area = s.area ∧ s2.track = s.track ∧
      ((s.agent_map.length ≤ 1 ∧ s2 = s) ∨
        (1 < s.agent_map.length ∧
          ∃ a : Agent, s2.agent_map = dictPop s.agent_map a.name)) := by
  by_cases hl : s.agent_map.length > 1
  · rw [ConfigServer.delete_agent, if_pos hl] at h
    cases hd : arg.decode Agent.from_json with
    | error e => simp [hd, Except.map] at h
    | ok a =>
      simp only [hd, Except.map, Except.ok.injEq] at h
      subst h
      exact ⟨rfl, rfl, Or.inr ⟨hl, a, rfl⟩⟩
  · rw [ConfigServer.delete_agent, if_neg hl] at h
    cases h
    exact ⟨rfl, rfl, Or.inl ⟨by omega, rfl⟩⟩

/-- Folding spawn-style inserts over a non-empty list (or onto a
non-empty dict) cannot produce the empty dict. -/
theorem foldl_dictSet_ne_nil (l : List Agent) (m : List (String × Agent))
    (h : m ≠ [] ∨ l ≠ []) :
    l.foldl (fun m a => dictSet m a.name a) m ≠ [] := by
  induction l generalizing m with
  | nil =>
    rcases h with h | h
    · simpa using h
    · simp at h
  | cons a l2 ih =>
    exact ih (dictSet m a.name a) (Or.inl (dictSet_ne_nil m a.name a))

/-- The registry is non-empty straight out of the constructor. -/
theorem init_agent_map_ne_nil (area : Option Area) (track : Option Track)
    (agents : Option (List Agent)) :
    (ConfigServer.init area track agents).agent_map ≠ [] := by
  cases agents with
  | none =>
    simp only [ConfigServer.init]
    exact foldl_dictSet_ne_nil [Agent.default] [] (Or.inr (by simp))
  | some l =>
    by_cases hl : l.isEmpty
    · simp only [ConfigServer.init, hl, if_pos]
      exact foldl_dictSet_ne_nil [Agent.default] [] (Or.inr (by simp))
    · simp only [ConfigServer.init, hl, if_neg]
      refine foldl_dictSet_ne_nil l [] (Or.inr ?_)
      intro hnil
      exact hl (by simp [hnil])

/-- Every mutator preserves registry non-emptiness. -/
theorem mutators_preserve_ne_nil (s s2 : ServerState)
    (h : s.agent_map ≠ []) :
    (∀ arg, ConfigServer.apply_area s arg = .ok s2 → s2.agent_map ≠ []) ∧
    (∀ arg, ConfigServer.apply_track s arg = .ok s2 → s2.agent_map ≠ []) ∧
    (∀ arg, ConfigServer.apply_agent s arg = .ok s2 → s2.agent_map ≠ []) ∧
    (∀ arg, ConfigServer.spawn_agent s arg = .ok s2 → s2.agent_map ≠ []) ∧
    (∀ arg, ConfigServer.delete_agent s arg = .ok s2 → s2.agent_map ≠ []) := by
  refine ⟨?_, ?_, ?_, ?_, ?_⟩
  · intro arg ha
    rw [(apply_area_ok s s2 arg ha).1]
    exact h
  · intro arg ha
    rw [(apply_track_ok s s2 arg ha).1]
    exact h
  · intro arg ha
    rcases (apply_agent_ok s s2 arg ha).2.2 with heq | ⟨a, heq⟩
    · rw [heq]; exact h
    · rw [heq]; exact dictSet_ne_nil _ _ _
  · intro arg ha
    obtain ⟨-, -, a, heq⟩ := spawn_agent_ok s s2 arg ha
    rw [heq]
    exact dictSet_ne_nil _ _ _
  · intro arg ha
    rcases (delete_agent_ok s s2 arg ha).2.2 with ⟨-, heq⟩ | ⟨hl, a, heq⟩
    · rw [heq]; exact h
    · rw [heq]
      have hge := dictPop_length_ge s.agent_map a.name
      have : 0 < (dictPop s.agent_map a.name).length := by omega
      exact List.ne_nil_of_length_pos this

/-- Dispatch preserves registry non-emptiness (every handler is either a
read or one of the mutators). -/
theorem on_received_preserves_ne_nil (s : ServerState) (key : String)
    (v : SideChannelData) (h : s.agent_map ≠ []) :
    (ConfigServer.on_received s key v).state.agent_map ≠ [] := by
  rw [on_received_eq]
  cases hp : parsedKey key with
  | none => simpa using h
  | some p =>
    obtain ⟨act, tgt⟩ := p
    cases act <;> cases tgt <;>
      simp only [resolveHandler] <;>
      try simpa using h
    case some.mk.GET.AGENT =>
      cases ConfigServer.get_agent s v.text <;> simpa using h
    case some.mk.APPLY.AREA =>
      cases ha : ConfigServer.apply_area s (.text v) with
      | error e => simpa [ha, Except.map] using h
      | ok s2 =>
        simpa [ha, Except.map] using
          (mutators_preserve_ne_nil s s2 h).1 (.text v) ha
    case some.mk.APPLY.AGENT =>
      cases ha : ConfigServer.apply_agent s (.text v) with
      | error e => simpa [ha, Except.map] using h
      | ok s2 =>
        simpa [ha, Except.map] using
          (mutators_preserve_ne_nil s s2 h).2.2.1 (.text v) ha
    case some.mk.APPLY.TRACK =>
      cases ha : ConfigServer.apply_track s (.text v) with
      | error e => simpa [ha, Except.map] using h
      | ok s2 =>
        simpa [ha, Except.map] using
          (mutators_preserve_ne_nil s s2 h).2.1 (.text v) ha
    case some.mk.SPAWN.AGENT =>
      cases ha : ConfigServer.spawn_agent s (.text v) with
      | error e => simpa [ha, Except.map] using h
      | ok s2 =>
        simpa [ha, Except.map] using
          (mutators_preserve_ne_nil s s2 h).2.2.2.1 (.text v) ha
    case some.mk.DELETE.AGENT =>
      cases ha : ConfigServer.delete_agent s (.text v) with
      | error e => simpa [ha, Except.map] using h
      | ok s2 =>
        simpa [ha, Except.map] using
          (mutators_preserve_ne_nil s s2 h).2.2.2.2 (.text v) ha

/-- dictContains is membership in the key list. -/
theorem dictContains_iff_mem (m : List (String × Agent)) (k : String) :
    dictContains m k = true ↔ k ∈ m.map Prod.fst := by
  induction m with
  | nil => simp [dictContains, List.lookup]
  | cons p rest ih =>
    obtain ⟨k0, v0⟩ := p
    by_cases hk : k = k0
    · subst hk
      simp [dictContains, List.lookup]
    · have ih2 := ih
      simp only [dictContains] at ih2
      simp [dictContains, List.lookup, beq_false_of_ne hk, hk, ih2]

/-- After an upsert on a dict with distinct keys, the key occurs exactly
once. -/
theorem dictSet_count_key (m : List (String × Agent)) (k : String)
    (v : Agent) (h : (m.map Prod.fst).Nodup) :
    ((dictSet m k v).map Prod.fst).count k = 1 := by
  by_cases hc : dictContains m k = true
  · rw [dictSet_keys_of_contains m k v hc]
    exact List.count_eq_one_of_mem h ((dictContains_iff_mem m k).1 hc)
  · rw [dictSet_keys_of_not_contains m k v (by simpa using hc)]
    have hmem : k ∉ m.map Prod.fst := fun hm =>
      hc ((dictContains_iff_mem m k).2 hm)
    simp [List.count_append, List.count_eq_zero_of_not_mem hmem]

/-- Element-wise decoding of an encoded agent list is the identity when
every agent satisfies the constructor invariant. -/
theorem decodeAgentList_map (l : List Agent)
    (h : ∀ a ∈ l, a.isValid = true) :
    decodeAgentList (l.map Agent.to_json) = .ok l := by
  induction l with
  | nil => rfl
  | cons x xs ih =>
    simp [decodeAgentList, agent_from_json_to_json x (h x (by simp)),
          bind, Except.bind, ih (fun a ha => h a (by simp [ha]))]

/-- One-step unfolding of the retry loop body. -/
theorem getLoopAux_succ (wait : Nat → Bool) (maxRetry i fuel : Nat) :
    Client.getLoopAux wait maxRetry i (fuel + 1) =
      if wait i then (1, .ok i)
      else if i + 1 > maxRetry then (1, .timeout maxRetry)
      else ((Client.getLoopAux wait maxRetry (i + 1) fuel).1 + 1,
            (Client.getLoopAux wait maxRetry (i + 1) fuel).2) := rfl

/-- In a run where no wait is ever satisfied, the retry loop spends all
its fuel, sending once per iteration, and ends in the timeout raise. -/
theorem getLoopAux_all_false (wait : Nat → Bool) (maxRetry : Nat)
    (hw : ∀ j, wait j = false) :
    ∀ (fuel i : Nat), i + fuel = maxRetry + 1 →
      Client.getLoopAux wait maxRetry i fuel = (fuel, .timeout maxRetry) := by
  intro fuel
  induction fuel with
  | zero => intro i h; rfl
  | succ f ih =>
    intro i h
    rw [getLoopAux_succ, hw i, if_neg (by simp)]
    cases f with
    | zero =>
      have hi : i = maxRetry := by omega
      subst hi
      rw [if_pos (by omega)]
    | succ g =>
      have hgt : ¬ i + 1 > maxRetry := by omega
      rw [if_neg hgt, ih (i + 1) (by omega)]

/-- Claim C1: for every well-formed server state and target in
area/track/agents, dispatching the get message sends exactly one reply on
the same key carrying the encoded current state, and decoding it (via the
target's from_json, element-wise for agents, as the client's
get_area/get_track/get_agents do) returns a value structurally equal to
the server-held state: the encode/decode round-trip is lossless. -/
theorem claim_C1_get_roundtrip (s : ServerState) (d : SideChannelData)
    (hwf : s.wf) :
    (ConfigServer.on_received s "deepracer_config::get::area" d =
      { state := s,
        sent := [("deepracer_config::get::area", .jsonText s.area.to_json)],
        raised := none } ∧
      Area.from_json s.area.to_json = .ok s.area) ∧
    (ConfigServer.on_received s "deepracer_config::get::track" d =
      { state := s,
        sent := [("deepracer_config::get::track", .jsonText s.track.to_json)],
        raised := none } ∧
      Track.from_json s.track.to_json = .ok s.track) ∧
    (ConfigServer.on_received s "deepracer_config::get::agents" d =
      { state := s,
        sent := [("deepracer_config::get::agents",
          .jsonText (.arr ((ConfigServer.get_agents s).map Agent.to_json)))],
        raised := none } ∧
      Client.decode_agents
          (.arr ((ConfigServer.get_agents s).map Agent.to_json)) =
        .ok (ConfigServer.get_agents s)) := by
  refine ⟨⟨rfl, area_from_json_to_json s.area⟩,
          ⟨rfl, track_from_json_to_json s.track⟩,
          ⟨rfl, ?_⟩⟩
  simp only [Client.decode_agents]
  refine decodeAgentList_map _ ?_
  intro a ha
  simp only [ConfigServer.get_agents, List.mem_map] at ha
  obtain ⟨p, hp, rfl⟩ := ha
  exact (hwf.2 p hp).2

/-- Witness for C1 at the default-constructed server. -/
theorem claim_C1_get_roundtrip_witness :
    sampleServer.wf ∧
    Area.from_json sampleServer.area.to_json = .ok sampleServer.area :=
  ⟨by decide,
   ((claim_C1_get_roundtrip sampleServer (.rawStr "") (by decide)).1).2⟩

/-- Counterexample to claim C2: the key spawn::area parses (both tokens
are valid enum members) but ConfigServer has no spawn_area method, and
the getattr at config_server.py line 211 sits outside both try/except
blocks, so on_received raises AttributeError to its caller instead of
catching and dropping. -/
theorem claim_C2_counterexample :
    (ConfigServer.on_received sampleServer
      "deepracer_config::spawn::area" (.rawStr "")).raised =
      some "AttributeError" := rfl

/-- Claim C2 as amended: parse failures of the key (wrong shape, wrong
first field, unknown action or target token) are caught, logged and
dropped with no reply, no raise and the state unchanged, and so is any
exception raised by an invoked handler; but a well-formed key whose
valid action/target combination has no handler method makes on_received
raise AttributeError to its caller (the state still unchanged and
nothing sent). -/
theorem claim_C2_amended (s : ServerState) (key : String)
    (value : SideChannelData) :
    ((ConfigServer.on_received s key value).raised ≠ none →
      (ConfigServer.on_received s key value).state = s ∧
      (ConfigServer.on_received s key value).sent = [] ∧
      ∃ act tgt, parsedKey key = some (act, tgt) ∧
        resolveHandler act tgt = none) ∧
    (parsedKey key = none →
      ConfigServer.on_received s key value =
        { state := s, sent := [], raised := none }) ∧
    (∀ act tgt method e, parsedKey key = some (act, tgt) →
      resolveHandler act tgt = some method →
      method s value = .error e →
      ConfigServer.on_received s key value =
        { state := s, sent := [], raised := none }) := by
  rw [on_received_eq]
  cases hp : parsedKey key with
  | none => simp
  | some p =>
    obtain ⟨act, tgt⟩ := p
    dsimp only
    refine ⟨?_, by simp, ?_⟩
    · cases hr : resolveHandler act tgt with
      | none => intro hne; exact ⟨rfl, rfl, act, tgt, rfl, hr⟩
      | some method =>
        cases hm : method s value with
        | error e => simp [hm]
        | ok pr =>
          obtain ⟨s2, config⟩ := pr
          by_cases hg : act = .GET
          · subst hg
            cases config <;> simp [hm]
          · simp [hm, hg]
    · intro act2 tgt2 method e hpk hr hm
      injection hpk with hpair
      cases hpair
      rw [hr]
      dsimp only
      rw [hm]

/-- Witness for the amended C2 at the spawn::area message. -/
theorem claim_C2_amended_witness :
    (ConfigServer.on_received sampleServer
        "deepracer_config::spawn::area" (.rawStr "")).state = sampleServer ∧
    (ConfigServer.on_received sampleServer
        "deepracer_config::spawn::area" (.rawStr "")).sent = [] ∧
    ∃ act tgt, parsedKey "deepracer_config::spawn::area" = some (act, tgt) ∧
      resolveHandler act tgt = none :=
  (claim_C2_amended sampleServer "deepracer_config::spawn::area"
      (.rawStr "")).1
    (by rw [show (ConfigServer.on_received sampleServer
        "deepracer_config::spawn::area" (.rawStr "")).raised =
          some "AttributeError" from rfl]; simp)

/-- Counterexample to claim C3: Client.apply_area performs no isinstance
validation — handed a Track entity it raises nothing and sends the
encoded track under the apply::area key. -/
theorem claim_C3_counterexample :
    Client.apply_area (.track Track.default) =
      .ok [("deepracer_config::apply::area",
            .jsonText Track.default.to_json)] := rfl

/-- Claim C3 as amended: apply_agent, apply_track, spawn_agent and
delete_agent validate the runtime variant of their argument, raising
ValueError synchronously (sending nothing) on a mismatch; apply_area
alone performs no validation and sends whatever entity it is handed,
encoded under the apply::area key. -/
theorem claim_C3_amended :
    (∀ a : Agent,
      Client.apply_agent (.agent a) =
        .ok [(Client.key .APPLY .AGENT, .jsonText a.to_json)] ∧
      Client.spawn_agent (.agent a) =
        .ok [(Client.key .SPAWN .AGENT, .jsonText a.to_json)] ∧
      Client.delete_agent (.agent a) =
        .ok [(Client.key .DELETE .AGENT, .jsonText a.to_json)] ∧
      Client.apply_track (.agent a) =
        .error "ValueError: Expected Track type") ∧
    (∀ x : Area,
      Client.apply_agent (.area x) =
        .error "ValueError: Expected Agent type" ∧
      Client.spawn_agent (.area x) =
        .error "ValueError: Expected Agent type" ∧
      Client.delete_agent (.area x) =
        .error "ValueError: Expected Agent type" ∧
      Client.apply_track (.area x) =
        .error "ValueError: Expected Track type") ∧
    (∀ t : Track,
      Client.apply_track (.track t) =
        .ok [(Client.key .APPLY .TRACK, .jsonText t.to_json)] ∧
      Client.apply_agent (.track t) =
        .error "ValueError: Expected Agent type" ∧
      Client.spawn_agent (.track t) =
        .error "ValueError: Expected Agent type" ∧
      Client.delete_agent (.track t) =
        .error "ValueError: Expected Agent type") ∧
    (∀ e : Entity,
      Client.apply_area e =
        .ok [(Client.key .APPLY .AREA, .jsonText e.to_json)]) :=
  ⟨fun _ => ⟨rfl, rfl, rfl, rfl⟩, fun _ => ⟨rfl, rfl, rfl, rfl⟩,
   fun _ => ⟨rfl, rfl, rfl, rfl⟩, fun _ => rfl⟩

/-- Claim C4: in a run where no response is ever delivered (every
condition.wait lapses), _get sends exactly max_retry_attempts + 1
requests and then raises TimeoutError carrying the retry count. -/
theorem claim_C4_timeout_retries (maxRetry : Nat) (wait : Nat → Bool)
    (hw : ∀ i, wait i = false) :
    Client.get wait maxRetry = (maxRetry + 1, .timeout maxRetry) := by
  have h := getLoopAux_all_false wait maxRetry hw (maxRetry + 1) 0 (by omega)
  simpa [Client.get] using h

/-- Witness for C4 with max_retry_attempts = 2: three sends then the
timeout. -/
theorem claim_C4_timeout_retries_witness :
    Client.get (fun _ => false) 2 = (3, .timeout 2) :=
  claim_C4_timeout_retries 2 (fun _ => false) (fun _ => rfl)

/-- Claim C5 is violated by the code: in the handoff model, a response
delivered after the first attempt's send — between that attempt's wait
timing out and the next wait beginning — is stored in _res_map but its
notification is lost, and because _get never re-checks the result cell
before waiting, the get still ends in TimeoutError. Schedule: send+wait,
timeout, deliver, send+wait, timeout, with max_retry_attempts = 1. -/
theorem claim_C5_lost_wakeup :
    handoffRun (handoffInit 1)
      [.sendWait, .timeoutFire, .deliver, .sendWait, .timeoutFire] =
      { pc := .timedOut, res := true, delivered := true, maxRetry := 1 } := by
  decide

/-- Claim C6: the agent registry is never empty — non-empty straight out
of the constructor for every argument (None and the empty iterable both
fall back to a single default Agent), preserved by every mutator and by
every dispatched message; in particular delete_agent on the last
remaining agent leaves the state untouched. -/
theorem claim_C6_registry_nonempty :
    (∀ (a : Option Area) (t : Option Track) (ag : Option (List Agent)),
      (ConfigServer.init a t ag).agent_map ≠ []) ∧
    (∀ s : ServerState, s.agent_map ≠ [] →
      (∀ arg s2, ConfigServer.apply_area s arg = .ok s2 →
        s2.agent_map ≠ []) ∧
      (∀ arg s2, ConfigServer.apply_track s arg = .ok s2 →
        s2.agent_map ≠ []) ∧
      (∀ arg s2, ConfigServer.apply_agent s arg = .ok s2 →
        s2.agent_map ≠ []) ∧
      (∀ arg s2, ConfigServer.spawn_agent s arg = .ok s2 →
        s2.agent_map ≠ []) ∧
      (∀ arg s2, ConfigServer.delete_agent s arg = .ok s2 →
        s2.agent_map ≠ []) ∧
      (∀ key v, (ConfigServer.on_received s key v).state.agent_map ≠ [])) ∧
    (∀ (s : ServerState) (arg : ConfigArg Agent), s.agent_map.length = 1 →
      ConfigServer.delete_agent s arg = .ok s) := by
  refine ⟨init_agent_map_ne_nil, ?_, ?_⟩
  · intro s h
    refine ⟨fun arg s2 ha => (mutators_preserve_ne_nil s s2 h).1 arg ha,
            fun arg s2 ha => (mutators_preserve_ne_nil s s2 h).2.1 arg ha,
            fun arg s2 ha => (mutators_preserve_ne_nil s s2 h).2.2.1 arg ha,
            fun arg s2 ha => (mutators_preserve_ne_nil s s2 h).2.2.2.1 arg ha,
            fun arg s2 ha => (mutators_preserve_ne_nil s s2 h).2.2.2.2 arg ha,
            fun key v => on_received_preserves_ne_nil s key v h⟩
  · intro s arg h
    rw [ConfigServer.delete_agent, if_neg (by omega)]

/-- Witness for C6: default construction, a dispatched delete of the last
agent, and a direct delete of the last agent. -/
theorem claim_C6_registry_nonempty_witness :
    sampleServer.agent_map ≠ [] ∧
    (ConfigServer.on_received sampleServer "deepracer_config::delete::agent"
      (.rawStr "x")).state.agent_map ≠ [] ∧
    ConfigServer.delete_agent sampleServer (.obj Agent.default) =
      .ok sampleServer :=
  ⟨claim_C6_registry_nonempty.1 none none none,
   (claim_C6_registry_nonempty.2.1 sampleServer
       (by decide)).2.2.2.2.2 "deepracer_config::delete::agent" (.rawStr "x"),
   claim_C6_registry_nonempty.2.2 sampleServer (.obj Agent.default)
     (by decide)⟩

/-- Claim C7: apply_agent replaces the registry entry for the agent's
name exactly when an entry with that name exists; otherwise the whole
state is returned unchanged. On replacement the key set is unchanged and
every other entry is untouched. -/
theorem claim_C7_apply_agent (s : ServerState) (a : Agent) :
    (dictContains s.agent_map a.name = false →
      ConfigServer.apply_agent s (.obj a) = .ok s) ∧
    (dictContains s.agent_map a.name = true →
      ConfigServer.apply_agent s (.obj a) =
        .ok { s with agent_map := dictSet s.agent_map a.name a } ∧
      (dictSet s.agent_map a.name a).lookup a.name = some a ∧
      (∀ k, k ≠ a.name →
        (dictSet s.agent_map a.name a).lookup k = s.agent_map.lookup k) ∧
      (dictSet s.agent_map a.name a).map Prod.fst =
        s.agent_map.map Prod.fst) := by
  constructor
  · intro h
    simp [ConfigServer.apply_agent, ConfigArg.decode, Except.map, h]
  · intro h
    exact ⟨by simp [ConfigServer.apply_agent, ConfigArg.decode,
                    Except.map, h],
           dictSet_lookup_self _ _ _,
           fun k hk => dictSet_lookup_ne _ _ _ _ hk,
           dictSet_keys_of_contains _ _ _ h⟩

/-- Witness for C7: applying to an absent name is a no-op; applying to
the present default name replaces it. -/
theorem claim_C7_apply_agent_witness :
    ConfigServer.apply_agent sampleServer
      (.obj { Agent.default with name := "botX" }) = .ok sampleServer ∧
    ConfigServer.apply_agent sampleServer (.obj Agent.default) =
      .ok { sampleServer with
            agent_map := dictSet sampleServer.agent_map
              Agent.default.name Agent.default } :=
  ⟨(claim_C7_apply_agent sampleServer
      { Agent.default with name := "botX" }).1 (by decide),
   ((claim_C7_apply_agent sampleServer Agent.default).2 (by decide)).1⟩

/-- Claim C8: spawn_agent is an unconditional upsert keyed by name: the
entry for the agent's name is written whether or not it existed, a
distinct-key registry ends up with exactly one entry for the name, and
spawning twice with two same-named agents leaves exactly one entry
holding the second call's values. -/
theorem claim_C8_spawn_upsert (s : ServerState) (a : Agent) :
    ConfigServer.spawn_agent s (.obj a) =
      .ok { s with agent_map := dictSet s.agent_map a.name a } ∧
    (dictSet s.agent_map a.name a).lookup a.name = some a ∧
    ((s.agent_map.map Prod.fst).Nodup →
      ((dictSet s.agent_map a.name a).map Prod.fst).count a.name = 1) ∧
    (∀ a1 a2 : Agent, a1.name = a2.name →
      ∃ s1 s2, ConfigServer.spawn_agent s (.obj a1) = .ok s1 ∧
        ConfigServer.spawn_agent s1 (.obj a2) = .ok s2 ∧
        s2.agent_map = dictSet s.agent_map a2.name a2 ∧
        s2.agent_map.lookup a2.name = some a2 ∧
        ((s.agent_map.map Prod.fst).Nodup →
          (s2.agent_map.map Prod.fst).count a2.name = 1)) := by
  refine ⟨rfl, dictSet_lookup_self _ _ _,
          dictSet_count_key s.agent_map a.name a, ?_⟩
  intro a1 a2 hname
  have hdd : dictSet (dictSet s.agent_map a1.name a1) a2.name a2 =
      dictSet s.agent_map a2.name a2 := by
    rw [hname, dictSet_dictSet_same]
  refine ⟨_, _, rfl, rfl, hdd, ?_, ?_⟩
  · exact dictSet_lookup_self (dictSet s.agent_map a1.name a1) a2.name a2
  · intro hnd
    have hcount := dictSet_count_key s.agent_map a2.name a2 hnd
    rw [← hdd] at hcount
    exact hcount

/-- Witness for C8: spawning bot1 then a same-named bot1 with another
shell leaves one entry with the latest values. -/
theorem claim_C8_spawn_upsert_witness :
    ((dictSet sampleServer.agent_map Agent.default.name
        Agent.default).map Prod.fst).count Agent.default.name = 1 ∧
    ∃ s1 s2, ConfigServer.spawn_agent sampleServer
        (.obj { Agent.default with name := "bot1" }) = .ok s1 ∧
      ConfigServer.spawn_agent s1
        (.obj { Agent.default with name := "bot1", shell := "red" }) =
        .ok s2 ∧
      s2.agent_map = dictSet sampleServer.agent_map
        ({ Agent.default with name := "bot1", shell := "red" } : Agent).name
        { Agent.default with name := "bot1", shell := "red" } ∧
      s2.agent_map.lookup
          ({ Agent.default with name := "bot1", shell := "red" } : Agent).name =
        some { Agent.default with name := "bot1", shell := "red" } ∧
      ((sampleServer.agent_map.map Prod.fst).Nodup →
        (s2.agent_map.map Prod.fst).count
          ({ Agent.default with name := "bot1", shell := "red" } : Agent).name =
          1) :=
  ⟨(claim_C8_spawn_upsert sampleServer Agent.default).2.2.1 (by decide),
   (claim_C8_spawn_upsert sampleServer Agent.default).2.2.2
     { Agent.default with name := "bot1" }
     { Agent.default with name := "bot1", shell := "red" } rfl⟩

/-- Claim C9: delete_agent on a single-entry registry returns the state
unchanged; on a registry of two or more distinct-keyed entries it pops
exactly the entry with the agent's name, leaving every other entry, the
area and the track unchanged (and shrinking the registry by exactly one
when the name was present). -/
theorem claim_C9_delete_agent (s : ServerState) (a : Agent) :
    (s.agent_map.length = 1 → ConfigServer.delete_agent s (.obj a) = .ok s) ∧
    (2 ≤ s.agent_map.length → (s.agent_map.map Prod.fst).Nodup →
      ConfigServer.delete_agent s (.obj a) =
        .ok { s with agent_map := dictPop s.agent_map a.name } ∧
      (dictPop s.agent_map a.name).lookup a.name = none ∧
      (∀ k, k ≠ a.name →
        (dictPop s.agent_map a.name).lookup k = s.agent_map.lookup k) ∧
      (dictContains s.agent_map a.name = true →
        (dictPop s.agent_map a.name).length + 1 = s.agent_map.length)) := by
  constructor
  · intro h
    rw [ConfigServer.delete_agent, if_neg (by omega)]
  · intro hl hnd
    refine ⟨?_, dictPop_lookup_self _ _ hnd,
            fun k hk => dictPop_lookup_ne _ _ _ hk,
            fun hc => dictPop_length_of_contains _ _ hc⟩
    rw [ConfigServer.delete_agent, if_pos (by omega)]
    rfl

/-- Witness for C9: deleting the only agent of a default server changes
nothing; deleting agent0 from a two-agent server pops exactly it. -/
theorem claim_C9_delete_agent_witness :
    ConfigServer.delete_agent sampleServer (.obj Agent.default) =
      .ok sampleServer ∧
    (ConfigServer.delete_agent sampleServer2 (.obj Agent.default) =
      .ok { sampleServer2 with
            agent_map := dictPop sampleServer2.agent_map
              Agent.default.name } ∧
      (dictPop sampleServer2.agent_map Agent.default.name).lookup
        Agent.default.name = none ∧
      (∀ k, k ≠ Agent.default.name →
        (dictPop sampleServer2.agent_map Agent.default.name).lookup k =
          sampleServer2.agent_map.lookup k) ∧
      (dictContains sampleServer2.agent_map Agent.default.name = true →
        (dictPop sampleServer2.agent_map Agent.default.name).length + 1 =
          sampleServer2.agent_map.length)) :=
  ⟨(claim_C9_delete_agent sampleServer Agent.default).1 (by decide),
   (claim_C9_delete_agent sampleServer2 Agent.default).2 (by decide)
     (by decide)⟩

/-- Claim C10: a get::agent message whose payload names an absent agent
makes get_agent return the None sentinel without raising, and the
dispatch sends no reply at all — on the wire, indistinguishable from
silence. -/
theorem claim_C10_get_agent_absent (s : ServerState) (name : String)
    (h : name ∉ s.agent_map.map Prod.fst) :
    ConfigServer.get_agent s name = none ∧
    ConfigServer.on_received s "deepracer_config::get::agent"
      (.rawStr name) = { state := s, sent := [], raised := none } := by
  have h0 : ConfigServer.get_agent s name = none :=
    dict_lookup_eq_none s.agent_map name h
  refine ⟨h0, ?_⟩
  rw [on_received_eq,
      show parsedKey "deepracer_config::get::agent" =
        some (.GET, .AGENT) from rfl]
  dsimp only [resolveHandler, SideChannelData.text]
  rw [h0]
  rfl

/-- Witness for C10 at an unknown name on a default server. -/
theorem claim_C10_get_agent_absent_witness :
    ConfigServer.get_agent sampleServer "ghost" = none ∧
    ConfigServer.on_received sampleServer "deepracer_config::get::agent"
      (.rawStr "ghost") =
      { state := sampleServer, sent := [], raised := none } :=
  claim_C10_get_agent_absent sampleServer "ghost" (by decide)
